import Mathlib

/-!
Verification development for the wifi-dump repository (`wifi_extractor.py`).

Strings are modelled as `List Char`. Python's `str.strip`, `str.split('\n')`,
`str.startswith`, the `in` substring test, and the two regular expressions
`r':\s*(.+)'` and `r'Все профили пользователей\s*:\s*(.+)'` are embedded as
executable functions below, and the parsing / filtering / export pipeline of
`WifiExtractor` is translated on top of them.
-/

abbrev Str := List Char

/-- Python `str.strip()` whitespace set (ASCII part), which coincides with the
ASCII part of the regex class `\s`. -/
def isSpace (c : Char) : Bool :=
  c = ' ' || c = '\t' || c = '\n' || c = '\r' || c = '\x0b' || c = '\x0c'

/-- Python `str.strip()`. -/
def strip (s : Str) : Str :=
  List.reverse (List.dropWhile isSpace (List.reverse (List.dropWhile isSpace s)))

/-- Python `output.split('\n')`. -/
def splitLines : Str → List Str
  | [] => [[]]
  | c :: cs =>
    let r := splitLines cs
    if c = '\n' then [] :: r
    else
      match r with
      | [] => [[c]]
      | l :: ls => (c :: l) :: ls

/-- Python `line.startswith(pat)` (first argument is the pattern). -/
def startsWith : Str → Str → Bool
  | [], _ => true
  | _ :: _, [] => false
  | p :: ps, c :: cs => p = c && startsWith ps cs

/-- Python `pat in line` (substring containment; first argument is the pattern). -/
def hasSub (pat : Str) : Str → Bool
  | [] => pat.isEmpty
  | c :: rest => startsWith pat (c :: rest) || hasSub pat rest

/-- Length of the maximal whitespace run at the head of a string
(what the greedy `\s*` consumes before backtracking). -/
def wsRunLen : Str → Nat
  | [] => 0
  | c :: cs => if isSpace c then wsRunLen cs + 1 else 0

/-- Matching `\s*(.+)` against `cs` (anchored at the head): greedy `\s*` with
backtracking so that `(.+)` keeps at least one character; returns group 1.
The parsers only apply this to lines free of `'\n'` (the input was split on
newlines), where it agrees with Python's `.` semantics. -/
def matchTailValue (cs : Str) : Option Str :=
  if cs.isEmpty then none
  else some (cs.drop (min (wsRunLen cs) (cs.length - 1)))

/-- Python `re.search(r':\s*(.+)', line)`: the leftmost `':'` that still has at
least one character after it starts the match; returns group 1 (untrimmed). -/
def searchColonValue : Str → Option Str
  | [] => none
  | c :: cs =>
    if c = ':' then
      match matchTailValue cs with
      | some g => some g
      | none => searchColonValue cs
    else searchColonValue cs

/-- Label opening the user-profiles section of `netsh wlan show profiles`. -/
def userProfilesLabel : Str := ("Профили пользователей").data

/-- Label opening the group-policy-profiles section. -/
def groupPolicyLabel : Str := ("Профили групповой политики").data

/-- Literal part of the profile-entry pattern `Все профили пользователей\s*:\s*(.+)`. -/
def entryLabel : Str := ("Все профили пользователей").data

/-- Matching `Все профили пользователей\s*:\s*(.+)` anchored at the head of `s`. -/
def matchEntryAt (s : Str) : Option Str :=
  if startsWith entryLabel s then
    match List.dropWhile isSpace (s.drop entryLabel.length) with
    | ':' :: cs => matchTailValue cs
    | _ => none
  else none

/-- Python `re.search(r'Все профили пользователей\s*:\s*(.+)', line)`:
try every start position from the left; returns group 1 (untrimmed). -/
def searchEntry : Str → Option Str
  | [] => none
  | c :: cs =>
    match matchEntryAt (c :: cs) with
    | some g => some g
    | none => searchEntry cs

/-- Loop body of `WifiExtractor._parse_profile_list`: the `for` loop with its
`in_user_profiles_section` flag; `break` is modelled by returning the
already-collected tail ( `[]` ), appended entries by consing. -/
def parseListLoop : List Str → Bool → List Str
  | [], _ => []
  | l :: ls, inSec =>
    let line := strip l
    if startsWith userProfilesLabel line then parseListLoop ls true
    else if inSec then
      if line.isEmpty || startsWith groupPolicyLabel line then []
      else
        match searchEntry line with
        | some g => strip g :: parseListLoop ls true
        | none => parseListLoop ls true
    else parseListLoop ls false

/-- `WifiExtractor._parse_profile_list`. -/
def parse_profile_list (output : Str) : List Str :=
  parseListLoop (splitLines output) false

/-- The dataclass `WifiProfile`. -/
structure WifiProfile where
  ssid : Str
  authentication : Str
  encryption : Str
  key : Str
  key_type : Str
  profile_type : Str
  last_modified : Str
deriving DecidableEq, Repr

def authTextPred (line : Str) : Bool :=
  hasSub (("Authentication").data) line || hasSub (("Проверка подлинности").data) line

def cipherTextPred (line : Str) : Bool :=
  hasSub (("Cipher").data) line || hasSub (("Шифр").data) line

def keyTextPred (line : Str) : Bool :=
  hasSub (("Key Content").data) line || hasSub (("Содержимое ключа").data) line

def keyTypeTextPred (line : Str) : Bool :=
  hasSub (("Key Type").data) line || hasSub (("Тип ключа").data) line

def profileTypeTextPred (line : Str) : Bool :=
  hasSub (("Profile Type").data) line || hasSub (("Тип профиля").data) line

def noPasswordSavedS : Str := ("No password saved").data

def notFoundS : Str := ("Not found").data

/-- One iteration of the line loop in `WifiExtractor._parse_profile_details`:
the `elif` chain over the stripped line, updating the profile record. -/
def detailStep (pd : WifiProfile) (rawLine : Str) : WifiProfile :=
  let line := strip rawLine
  if authTextPred line then
    match searchColonValue line with
    | some g => { pd with authentication := strip g }
    | none => pd
  else if cipherTextPred line then
    match searchColonValue line with
    | some g => { pd with encryption := strip g }
    | none => pd
  else if keyTextPred line then
    match searchColonValue line with
    | some g =>
      let kc := strip g
      if kc ≠ [] ∧ kc ≠ (("Absent").data) then { pd with key := kc }
      else { pd with key := noPasswordSavedS }
    | none => pd
  else if keyTypeTextPred line then
    match searchColonValue line with
    | some g => { pd with key_type := strip g }
    | none => pd
  else if profileTypeTextPred line then
    match searchColonValue line with
    | some g => { pd with profile_type := strip g }
    | none => pd
  else pd

/-- `WifiExtractor._parse_profile_details` (it always returns a profile, so the
`Optional` wrapper of the source is dropped). -/
def parse_profile_details (output profile_name : Str) : WifiProfile :=
  List.foldl detailStep
    { ssid := profile_name
      authentication := ("Unknown").data
      encryption := ("Unknown").data
      key := notFoundS
      key_type := ("Unknown").data
      profile_type := ("Unknown").data
      last_modified := [] }
    (splitLines output)

/-- The guard under which the `elif 'Key Content' in line or ...` branch of
`_parse_profile_details` is selected (the earlier `elif`s must have failed). -/
def keyBranchGuard (line : Str) : Bool :=
  !authTextPred line && !cipherTextPred line && keyTextPred line

/-- `true` when processing this raw line overwrites the `key` field. -/
def updatesKey (rawLine : Str) : Bool :=
  keyBranchGuard (strip rawLine) && (searchColonValue (strip rawLine)).isSome

/-- Python truthiness test `p.key` plus the two sentinel comparisons: the
predicate of the `has_password=True` branch of `filter_profiles`. -/
def hasSavedKey (p : WifiProfile) : Bool :=
  decide (p.key ≠ [] ∧ p.key ≠ noPasswordSavedS ∧ p.key ≠ notFoundS)

/-- The predicate of the `has_password=False` branch of `filter_profiles`
(`not p.key or p.key == 'No password saved' or p.key == 'Not found'`). -/
def noSavedKey (p : WifiProfile) : Bool :=
  decide (p.key = [] ∨ p.key = noPasswordSavedS ∨ p.key = notFoundS)

/-- Python `str.lower()` (ASCII case folding, as used on SSIDs and filters). -/
def lower (s : Str) : Str := s.map Char.toLower

/-- `WifiExtractor.filter_profiles` on an explicit profile list; `none` models
the Python `None` default, and an empty `ssid_filter` string is falsy in
Python, so it imposes no constraint. -/
def filter_profiles (profiles : List WifiProfile)
    (has_password : Option Bool) (ssid_filter : Option Str) : List WifiProfile :=
  let filtered :=
    match has_password with
    | none => profiles
    | some true => profiles.filter hasSavedKey
    | some false => profiles.filter noSavedKey
  match ssid_filter with
  | none => filtered
  | some f => if f.isEmpty then filtered else filtered.filter (fun p => hasSub (lower f) (lower p.ssid))

/-- The mutable state of a `WifiExtractor` object. -/
structure WifiExtractor where
  profiles : List WifiProfile
  is_admin : Bool
deriving DecidableEq, Repr

/-- The `filter_profiles` method in state-passing form: it reads
`self.profiles`, and the returned state records its (absence of) effect
on the object. -/
def WifiExtractor.filterProfilesM (e : WifiExtractor)
    (has_password : Option Bool) (ssid_filter : Option Str) :
    List WifiProfile × WifiExtractor :=
  (filter_profiles e.profiles has_password ssid_filter, e)

def listProfilesCmd : Str := ("netsh wlan show profiles").data

def showProfileCmd (profile_name : Str) : Str :=
  ("netsh wlan show profile name=\"").data ++ profile_name ++ ("\" key=clear").data

def adminErrMsg : Str :=
  ("Необходимы права администратора для доступа к Wi-Fi профилям").data

/-- `WifiExtractor.extract_profiles` in state-passing form.  External command
execution (`_run_command`) is an oracle `runCmd` from command line to captured
output; the third component is the trace of commands handed to the shell, in
order.  `PermissionError` is the `Except.error` case.  The source's
`if profile:` test is always true (`_parse_profile_details` never returns
`None`), so every parsed profile is appended. -/
def WifiExtractor.extractProfilesM (e : WifiExtractor) (runCmd : Str → Str) :
    Except Str (List WifiProfile) × WifiExtractor × List Str :=
  if e.is_admin = false then
    (Except.error adminErrMsg, e, [])
  else
    let profile_names := parse_profile_list (runCmd listProfilesCmd)
    let ps := profile_names.map (fun nm => parse_profile_details (runCmd (showProfileCmd nm)) nm)
    (Except.ok ps, { e with profiles := ps }, listProfilesCmd :: profile_names.map showProfileCmd)

/-- The dictionary returned by `WifiExtractor.get_stats`; the histogram is an
insertion-ordered association list, like a Python dict. -/
structure WifiStats where
  total_profiles : Nat
  with_password : Nat
  without_password : Nat
  authentication_types : List (Str × Nat)
deriving DecidableEq, Repr

/-- `auth_types[auth_type] = auth_types.get(auth_type, 0) + 1` on an
insertion-ordered dict. -/
def bumpCount : List (Str × Nat) → Str → List (Str × Nat)
  | [], k => [(k, 1)]
  | (k', n) :: rest, k => if k' = k then (k', n + 1) :: rest else (k', n) :: bumpCount rest k

/-- `WifiExtractor.get_stats`. -/
def WifiExtractor.getStats (e : WifiExtractor) : WifiStats :=
  let total := e.profiles.length
  let with_password := (e.profiles.filter hasSavedKey).length
  { total_profiles := total
    with_password := with_password
    without_password := total - with_password
    authentication_types := e.profiles.foldl (fun m p => bumpCount m p.authentication) [] }

def digitChar (n : Nat) : Char := Char.ofNat (48 + n)

/-- Decimal rendering of a natural number (Python `str(n)` / f-string `{n}` of
an `int`), accumulator form. -/
def natReprAux : Nat → Str → Str
  | n, acc =>
    if n < 10 then digitChar n :: acc
    else natReprAux (n / 10) (digitChar (n % 10) :: acc)
termination_by n _ => n
decreasing_by exact Nat.div_lt_self (by omega) (by omega)

def natRepr (n : Nat) : Str := natReprAux n []

def dashRule : Str := List.replicate 40 '-'

/-- One `Profile #i` block written by `export_to_txt`. -/
def txtBlock (i : Nat) (p : WifiProfile) : Str :=
  ("Profile #").data ++ natRepr i ++ '\n' :: ("SSID: ").data ++ p.ssid ++
  '\n' :: ("Authentication: ").data ++ p.authentication ++
  '\n' :: ("Encryption: ").data ++ p.encryption ++
  '\n' :: ("Key: ").data ++ p.key ++
  '\n' :: ("Key Type: ").data ++ p.key_type ++
  '\n' :: ("Profile Type: ").data ++ p.profile_type ++
  '\n' :: dashRule ++ '\n' :: '\n' :: []

/-- The `for i, profile in enumerate(profiles, 1)` loop of `export_to_txt`. -/
def txtBlocks : Nat → List WifiProfile → Str
  | _, [] => []
  | i, p :: ps => txtBlock i p ++ txtBlocks (i + 1) ps

/-- Full text written by `export_to_txt` (`now` stands for the formatted
`datetime.now()` timestamp, an external input). -/
def txtContent (now : Str) (profiles : List WifiProfile) : Str :=
  ("=== Wi-Fi Profile Extractor Results ===\n").data ++
  ("Generated: ").data ++ now ++
  '\n' :: ("Total profiles: ").data ++ natRepr profiles.length ++ '\n' :: '\n' ::
  txtBlocks 1 profiles

/-- A CSV field must be quoted when it contains the delimiter, the quote char,
or a line-terminator character (`csv.QUOTE_MINIMAL`). -/
def csvNeedsQuote (c : Char) : Bool := c = ',' || c = '"' || c = '\r' || c = '\n'

/-- Double every quote character inside a quoted CSV field. -/
def csvEscField : Str → Str
  | [] => []
  | c :: cs => if c = '"' then '"' :: '"' :: csvEscField cs else c :: csvEscField cs

def csvField (s : Str) : Str :=
  if s.any csvNeedsQuote then '"' :: csvEscField s ++ ['"'] else s

def csvCells : List Str → Str
  | [] => []
  | [x] => csvField x
  | x :: xs => csvField x ++ ',' :: csvCells xs

/-- One CSV row with the writer's default `\r\n` terminator. -/
def csvRow (cells : List Str) : Str := csvCells cells ++ '\r' :: '\n' :: []

def csvHeaderCells : List Str :=
  [("SSID").data, ("Authentication").data, ("Encryption").data,
   ("Key").data, ("Key Type").data, ("Profile Type").data]

def csvRows : List WifiProfile → Str
  | [] => []
  | p :: ps =>
    csvRow [p.ssid, p.authentication, p.encryption, p.key, p.key_type, p.profile_type] ++ csvRows ps

/-- Full text written by `export_to_csv`. -/
def csvContent (profiles : List WifiProfile) : Str :=
  csvRow csvHeaderCells ++ csvRows profiles

def hexDigitChar (n : Nat) : Char :=
  if n < 10 then Char.ofNat (48 + n) else Char.ofNat (87 + n)

/-- Escaping of one character by `json.dump(..., ensure_ascii=False)`:
quote, backslash and the five short escapes, `\u00XX` for the remaining
control characters, everything else written raw. -/
def escapeChar (c : Char) : Str :=
  if c = '"' then ['\\', '"']
  else if c = '\\' then ['\\', '\\']
  else if c = '\x08' then ['\\', 'b']
  else if c = '\x0c' then ['\\', 'f']
  else if c = '\n' then ['\\', 'n']
  else if c = '\r' then ['\\', 'r']
  else if c = '\t' then ['\\', 't']
  else if c.toNat < 32 then
    ['\\', 'u', '0', '0', hexDigitChar (c.toNat / 16), hexDigitChar (c.toNat % 16)]
  else [c]

def jsonEsc : Str → Str
  | [] => []
  | c :: cs => escapeChar c ++ jsonEsc cs

/-- A JSON string literal. -/
def jq (s : Str) : Str := '"' :: jsonEsc s ++ ['"']

/-- A `"key": "value"` member as `json.dump` writes it. -/
def jsonPair (key val : Str) : Str := jq key ++ ':' :: ' ' :: jq val

def ind2 : Str := ['\n', ' ', ' ']

def ind4 : Str := ['\n', ' ', ' ', ' ', ' ']

def ind6 : Str := ['\n', ' ', ' ', ' ', ' ', ' ', ' ']

/-- The members of an object after the first one, each preceded by the
item separator `,` and the depth-2 indentation. -/
def renderFields : List (Str × Str) → Str
  | [] => []
  | (k, v) :: t => ',' :: ind6 ++ jsonPair k v ++ renderFields t

/-- The six remaining members of a profile object, in `to_dict` order. -/
def tailFields (p : WifiProfile) : List (Str × Str) :=
  [((("authentication").data), p.authentication), ((("encryption").data), p.encryption),
   ((("key").data), p.key), ((("key_type").data), p.key_type),
   ((("profile_type").data), p.profile_type), ((("last_modified").data), p.last_modified)]

/-- One element of the `profiles` array: `WifiProfile.to_dict` rendered by
`json.dump(..., indent=2)` at nesting depth 2. -/
def renderProfileObj (p : WifiProfile) : Str :=
  '\x7b' :: ind6 ++ jsonPair (("ssid").data) p.ssid ++
  renderFields (tailFields p) ++
  ind4 ++ ['\x7d']

def renderArrTail : List WifiProfile → Str
  | [] => ind2 ++ [']']
  | p :: ps => ',' :: ind4 ++ renderProfileObj p ++ renderArrTail ps

/-- The `profiles` array as `json.dump(..., indent=2)` renders it. -/
def renderProfilesArr : List WifiProfile → Str
  | [] => ['[', ']']
  | p :: ps => '[' :: ind4 ++ renderProfileObj p ++ renderArrTail ps

/-- Full text written by `export_to_json`: the `data` dict of the source
(`generated` timestamp, `total_profiles`, `profiles`) dumped with
`indent=2, ensure_ascii=False`. -/
def jsonContent (now : Str) (profiles : List WifiProfile) : Str :=
  '\x7b' :: ind2 ++ jsonPair (("generated").data) now ++
  ',' :: ind2 ++ jq (("total_profiles").data) ++ ':' :: ' ' :: natRepr profiles.length ++
  ',' :: ind2 ++ jq (("profiles").data) ++ ':' :: ' ' :: renderProfilesArr profiles ++
  '\n' :: ['\x7d']

def txtErrTag : Str := ("Error saving to TXT: ").data

def csvErrTag : Str := ("Error saving to CSV: ").data

def jsonErrTag : Str := ("Error saving to JSON: ").data

/-- `WifiExtractor.export_to_txt` over an explicit profile list.  The file
system is an oracle `fsWrite` taking the filename and the full content; the
`try`/`except` of the source becomes the `match`: success returns `True`,
failure is caught, logged (second component, the `print` output) and reported
as `False` — no exception escapes. -/
def export_to_txt (fsWrite : Str → Str → Except Str Unit) (filename now : Str)
    (profiles : List WifiProfile) : Bool × List Str :=
  match fsWrite filename (txtContent now profiles) with
  | Except.ok _ => (true, [])
  | Except.error e => (false, [txtErrTag ++ e])

/-- `WifiExtractor.export_to_csv`, same modelling as `export_to_txt`. -/
def export_to_csv (fsWrite : Str → Str → Except Str Unit) (filename : Str)
    (profiles : List WifiProfile) : Bool × List Str :=
  match fsWrite filename (csvContent profiles) with
  | Except.ok _ => (true, [])
  | Except.error e => (false, [csvErrTag ++ e])

/-- `WifiExtractor.export_to_json`, same modelling as `export_to_txt`. -/
def export_to_json (fsWrite : Str → Str → Except Str Unit) (filename now : Str)
    (profiles : List WifiProfile) : Bool × List Str :=
  match fsWrite filename (jsonContent now profiles) with
  | Except.ok _ => (true, [])
  | Except.error e => (false, [jsonErrTag ++ e])

/-! ### Reading the structured export back

Modelled from the spec: "Export-then-reparse round-trip: for the structured
format, writing N profiles and reading the document back yields N objects
whose six displayable fields equal the originals exactly".  The reader is a
standard JSON reader specialised to the document shape `export_to_json`
writes (an object holding a string, a number, and an array of flat string
objects); it is whitespace-insensitive and unescapes string literals. -/

def isJsonWs (c : Char) : Bool := c = ' ' || c = '\t' || c = '\n' || c = '\r'

def skipWsJ (s : Str) : Str := List.dropWhile isJsonWs s

def hexCharVal (c : Char) : Option Nat :=
  if '0' ≤ c ∧ c ≤ '9' then some (c.toNat - 48)
  else if 'a' ≤ c ∧ c ≤ 'f' then some (c.toNat - 87)
  else if 'A' ≤ c ∧ c ≤ 'F' then some (c.toNat - 55)
  else none

def unescapeChar (e : Char) : Option Char :=
  if e = '"' then some '"'
  else if e = '\\' then some '\\'
  else if e = '/' then some '/'
  else if e = 'b' then some '\x08'
  else if e = 'f' then some '\x0c'
  else if e = 'n' then some '\n'
  else if e = 'r' then some '\r'
  else if e = 't' then some '\t'
  else none

/-- Body of a JSON string literal (after the opening quote): returns the
decoded string and the remainder after the closing quote.  Raw control
characters are rejected, as in a strict JSON reader. -/
def parseStrBody : Str → Option (Str × Str)
  | [] => none
  | c :: rest =>
    if c = '"' then some ([], rest)
    else if c = '\\' then
      match rest with
      | [] => none
      | e :: r =>
        if e = 'u' then
          match r with
          | h1 :: h2 :: h3 :: h4 :: r2 =>
            match hexCharVal h1, hexCharVal h2, hexCharVal h3, hexCharVal h4 with
            | some a, some b, some d1, some d2 =>
              (parseStrBody r2).map
                (fun pr => (Char.ofNat (4096 * a + 256 * b + 16 * d1 + d2) :: pr.1, pr.2))
            | _, _, _, _ => none
          | _ => none
        else
          match unescapeChar e with
          | some u => (parseStrBody r).map (fun pr => (u :: pr.1, pr.2))
          | none => none
    else if c.toNat < 32 then none
    else (parseStrBody rest).map (fun pr => (c :: pr.1, pr.2))

def parseStrLit : Str → Option (Str × Str)
  | [] => none
  | c :: rest => if c = '"' then parseStrBody rest else none

/-- Expect one specific character at the head of the input. -/
def expectCharHead (c : Char) (s : Str) : Option Str :=
  match s with
  | x :: r => if x = c then some r else none
  | [] => none

/-- A `"key": "value"` member whose key must equal `key`; leading whitespace
allowed; returns the decoded value. -/
def parseKeyedStr (key : Str) (s : Str) : Option (Str × Str) := do
  let (k, r) ← parseStrLit (skipWsJ s)
  if k = key then do
    let r2 ← expectCharHead ':' (skipWsJ r)
    parseStrLit (skipWsJ r2)
  else none

def expectComma (s : Str) : Option Str := expectCharHead ',' (skipWsJ s)

def expectColon (s : Str) : Option Str := expectCharHead ':' (skipWsJ s)

/-- Members after the first: each is a comma followed by a keyed string. -/
def parseFieldsAfter : List Str → Str → Option (List Str × Str)
  | [], s => some ([], s)
  | k :: ks, s => do
    let sc ← expectComma s
    let (v, r) ← parseKeyedStr k sc
    let (vs, r2) ← parseFieldsAfter ks r
    some (v :: vs, r2)

/-- One object of the `profiles` array, read back into a `WifiProfile`. -/
def parseProfileObj (s : Str) : Option (WifiProfile × Str) := do
  let r0 ← expectCharHead '\x7b' (skipWsJ s)
  let (v1, r1) ← parseKeyedStr (("ssid").data) r0
  let (vs, r7) ← parseFieldsAfter
    [("authentication").data, ("encryption").data, ("key").data,
     ("key_type").data, ("profile_type").data, ("last_modified").data] r1
  let r8 ← expectCharHead '\x7d' (skipWsJ r7)
  match vs with
  | [va, ve, vk, vkt, vpt, vlm] => some (⟨v1, va, ve, vk, vkt, vpt, vlm⟩, r8)
  | _ => none

/-- Comma-separated objects up to the closing bracket (fuel-bounded). -/
def parseArrItems : Nat → Str → Option (List WifiProfile × Str)
  | 0, _ => none
  | fuel + 1, s => do
    let (p, r) ← parseProfileObj s
    match skipWsJ r with
    | x :: r2 =>
      if x = ']' then some ([p], r2)
      else if x = ',' then do
        let (ps, r3) ← parseArrItems fuel r2
        some (p :: ps, r3)
      else none
    | [] => none

/-- The `profiles` array value. -/
def parseProfilesValue (fuel : Nat) (s : Str) : Option (List WifiProfile × Str) := do
  let r ← expectCharHead '[' (skipWsJ s)
  match skipWsJ r with
  | y :: r2 => if y = ']' then some ([], r2) else parseArrItems fuel r
  | [] => none

/-- The whole export document: returns the `generated` string, the digit run
of `total_profiles`, and the re-read profile list; the entire input must be
consumed up to trailing whitespace. -/
def parseJsonDoc (s : Str) : Option (Str × Str × List WifiProfile) := do
  let r0 ← expectCharHead '\x7b' (skipWsJ s)
  let (gen, r1) ← parseKeyedStr (("generated").data) r0
  let r1b ← expectComma r1
  let (k2, r3) ← parseStrLit (skipWsJ r1b)
  if k2 = (("total_profiles").data) then do
    let r4 ← expectColon r3
    let r5 := skipWsJ r4
    let digits := List.takeWhile Char.isDigit r5
    if digits.isEmpty then none
    else do
      let r6b ← expectComma (List.dropWhile Char.isDigit r5)
      let (k3, r7) ← parseStrLit (skipWsJ r6b)
      if k3 = (("profiles").data) then do
        let r8 ← expectColon r7
        let (ps, r9) ← parseProfilesValue (r8.length + 1) r8
        let r10 ← expectCharHead '\x7d' (skipWsJ r9)
        if (skipWsJ r10).isEmpty then some (gen, digits, ps) else none
      else none
  else none

/-! ## Lemmas about the detail parser -/

theorem detailStep_key_of_not_updates (pd : WifiProfile) (l : Str)
    (h : updatesKey l = false) : (detailStep pd l).key = pd.key := by
  unfold updatesKey keyBranchGuard at h
  unfold detailStep
  by_cases ha : authTextPred (strip l) = true
  · simp only [ha, if_true]
    cases hg : searchColonValue (strip l) <;> simp
  · simp only [ha, if_false, Bool.not_eq_true] at *
    by_cases hc : cipherTextPred (strip l) = true
    · simp only [hc, if_true]
      cases hg : searchColonValue (strip l) <;> simp
    · simp only [hc, Bool.not_eq_true] at *
      simp only [ha, hc, Bool.not_false, Bool.true_and] at h
      by_cases hk : keyTextPred (strip l) = true
      · simp only [hk, Bool.true_and] at h
        simp only [ha, hc, hk, if_true, Bool.false_eq_true, if_false]
        cases hg : searchColonValue (strip l)
        · simp
        · rw [hg] at h; simp at h
      · simp only [Bool.not_eq_true] at hk
        simp only [ha, hc, hk, Bool.false_eq_true, if_false]
        by_cases ht : keyTypeTextPred (strip l) = true
        · simp only [ht, if_true]
          cases hg : searchColonValue (strip l) <;> simp
        · simp only [Bool.not_eq_true] at ht
          simp only [ht, Bool.false_eq_true, if_false]
          by_cases hp : profileTypeTextPred (strip l) = true
          · simp only [hp, if_true]
            cases hg : searchColonValue (strip l) <;> simp
          · simp only [Bool.not_eq_true] at hp
            simp only [hp, Bool.false_eq_true, if_false]

theorem foldl_detailStep_key (ls : List Str) (pd : WifiProfile)
    (h : ∀ l ∈ ls, updatesKey l = false) :
    (List.foldl detailStep pd ls).key = pd.key := by
  induction ls generalizing pd with
  | nil => rfl
  | cons l ls ih =>
    simp only [List.foldl_cons]
    rw [ih _ (fun x hx => h x (List.mem_cons_of_mem _ hx)),
      detailStep_key_of_not_updates pd l (h l (List.mem_cons_self _ _))]

theorem detailStep_key_of_updates (pd : WifiProfile) (l g : Str)
    (hg : keyBranchGuard (strip l) = true) (hs : searchColonValue (strip l) = some g) :
    (detailStep pd l).key =
      if strip g ≠ [] ∧ strip g ≠ (("Absent").data) then strip g else noPasswordSavedS := by
  unfold keyBranchGuard at hg
  simp only [Bool.and_eq_true, Bool.not_eq_true'] at hg
  obtain ⟨⟨ha, hc⟩, hk⟩ := hg
  unfold detailStep
  simp only [ha, hc, hk, Bool.false_eq_true, if_false, if_true, hs]
  split <;> simp

/-! ## C1 / C2: the key field of the detail parser -/

/-- **C1 counterexample.**  The line `"Key Content:"` matches the key-content
predicate and the portion after its colon is empty, so the claim mandates the
key `"No password saved"`; but the value regex `:\s*(.+)` finds no match on
that line, the branch body is skipped, and the parsed key stays at the other
sentinel `"Not found"`. -/
theorem detail_key_empty_value_cex :
    keyTextPred (strip (("Key Content:").data)) = true
  ∧ searchColonValue (strip (("Key Content:").data)) = none
  ∧ (parse_profile_details (("Key Content:").data) (("X").data)).key = notFoundS
  ∧ notFoundS ≠ noPasswordSavedS := by decide

/-- **C1** (amended).  (i) If no line of the detail output overwrites the key
field — in particular whenever no line matches the key-content predicate —
the parsed key is the sentinel `"Not found"`.  (ii) If some line is selected
by the key-content branch, its colon regex extracts a value whose trimmed
form is `"Absent"`, and no later line overwrites the key again, the parsed
key is `"No password saved"`.  A key-content line with an *empty* value after
the colon never matches the value regex and therefore leaves the key at
`"Not found"` (see `detail_key_empty_value_cex`), which is the one point where
the claim as stated fails.  (iii) The two sentinels never coincide. -/
theorem detail_key_sentinel_cases (output profile_name : Str) :
    ((∀ l ∈ splitLines output, updatesKey l = false) →
      (parse_profile_details output profile_name).key = notFoundS)
  ∧ (∀ l1 l l2 g, splitLines output = l1 ++ l :: l2 →
      keyBranchGuard (strip l) = true →
      searchColonValue (strip l) = some g →
      strip g = (("Absent").data) →
      (∀ x ∈ l2, updatesKey x = false) →
      (parse_profile_details output profile_name).key = noPasswordSavedS)
  ∧ notFoundS ≠ noPasswordSavedS := by
  refine ⟨fun h => ?_, fun l1 l l2 g hsplit hg hs habs h2 => ?_, by decide⟩
  · exact foldl_detailStep_key _ _ h
  · unfold parse_profile_details
    rw [hsplit, List.foldl_append, List.foldl_cons, foldl_detailStep_key _ _ h2,
      detailStep_key_of_updates _ _ _ hg hs, habs]
    simp

/-- Witness for `detail_key_sentinel_cases`: an output with no key-content
line parses to `"Not found"`; an output whose key-content value is `"Absent"`
parses to `"No password saved"`. -/
theorem detail_key_sentinel_cases_w :
    (parse_profile_details (("Authentication: WPA2").data) (("N").data)).key = notFoundS
  ∧ (parse_profile_details (("Key Content: Absent").data) (("N").data)).key
      = noPasswordSavedS := by
  constructor
  · exact (detail_key_sentinel_cases (("Authentication: WPA2").data) (("N").data)).1
      (by decide)
  · exact (detail_key_sentinel_cases (("Key Content: Absent").data) (("N").data)).2.1
      [] (("Key Content: Absent").data) [] (("Absent").data)
      (by decide) (by decide) (by decide) (by decide) (by decide)

/-- **C2 counterexample.**  The output `"Key Content: a\nKey Content: Absent"`
contains a line matching the key-content predicate whose trimmed value `"a"`
is non-empty and not `"Absent"`, so the claim mandates key `"a"`; but the
later key-content line overwrites the field and the parsed key is
`"No password saved"`. -/
theorem detail_key_fidelity_cex :
    splitLines (("Key Content: a\nKey Content: Absent").data)
      = [("Key Content: a").data, ("Key Content: Absent").data]
  ∧ keyTextPred (strip (("Key Content: a").data)) = true
  ∧ searchColonValue (strip (("Key Content: a").data)) = some (("a").data)
  ∧ strip (("a").data) = ("a").data
  ∧ ("a").data ≠ [] ∧ ("a").data ≠ (("Absent").data)
  ∧ (parse_profile_details (("Key Content: a\nKey Content: Absent").data) (("X").data)).key
      = noPasswordSavedS
  ∧ noPasswordSavedS ≠ ("a").data := by decide

/-- **C2** (amended): secret fidelity holds for the *last* overwrite of the
key field.  If some line is selected by the key-content branch, the colon
regex extracts a value whose trimmed form is non-empty and not `"Absent"`,
and no later line overwrites the key, then the parsed key is exactly that
trimmed value, unaltered.  (The claim as stated — for *any* such line — fails
when a later key-content line overrides it, see `detail_key_fidelity_cex`.) -/
theorem detail_key_fidelity (output profile_name : Str) :
    ∀ l1 l l2 g, splitLines output = l1 ++ l :: l2 →
      keyBranchGuard (strip l) = true →
      searchColonValue (strip l) = some g →
      strip g ≠ [] →
      strip g ≠ (("Absent").data) →
      (∀ x ∈ l2, updatesKey x = false) →
      (parse_profile_details output profile_name).key = strip g := by
  intro l1 l l2 g hsplit hg hs hne habs h2
  unfold parse_profile_details
  rw [hsplit, List.foldl_append, List.foldl_cons, foldl_detailStep_key _ _ h2,
    detailStep_key_of_updates _ _ _ hg hs, if_pos ⟨hne, habs⟩]

/-- Witness for `detail_key_fidelity`: the value `"my secret"` (with interior
whitespace and surrounding trimming) is recovered exactly. -/
theorem detail_key_fidelity_w :
    (parse_profile_details (("    Key Content       :  my secret \n").data)
      (("N").data)).key = ("my secret").data := by
  exact detail_key_fidelity (("    Key Content       :  my secret \n").data) (("N").data)
    [] (("    Key Content       :  my secret ").data) [[]] (("my secret").data)
    (by decide) (by decide) (by decide) (by decide) (by decide) (by decide)

/-! ## C3: the profile-list parser -/

theorem startsWith_or_of_both (t p1 p2 : Str) (h1 : startsWith p1 t = true)
    (h2 : startsWith p2 t = true) :
    startsWith p1 p2 = true ∨ startsWith p2 p1 = true := by
  induction t generalizing p1 p2 with
  | nil =>
    cases p1 with
    | nil => exact Or.inl (by cases p2 <;> simp [startsWith] at *)
    | cons a as => simp [startsWith] at h1
  | cons c cs ih =>
    cases p1 with
    | nil => exact Or.inl (by cases p2 <;> simp [startsWith])
    | cons a as =>
      cases p2 with
      | nil => exact Or.inr (by simp [startsWith])
      | cons b bs =>
        simp only [startsWith, Bool.and_eq_true, decide_eq_true_eq] at h1 h2
        obtain ⟨rfl, h1⟩ := h1
        obtain ⟨rfl, h2⟩ := h2
        rcases ih as bs h1 h2 with h | h
        · exact Or.inl (by simp [startsWith, h])
        · exact Or.inr (by simp [startsWith, h])

/-- A line opening the group-policy section cannot simultaneously open the
user-profiles section: the two labels disagree. -/
theorem group_header_not_user_header (t : Str)
    (h : startsWith groupPolicyLabel t = true) :
    startsWith userProfilesLabel t = false := by
  by_contra hc
  rw [Bool.not_eq_false] at hc
  rcases startsWith_or_of_both t userProfilesLabel groupPolicyLabel hc h with h' | h' <;>
    revert h' <;> decide

theorem parseListLoop_skip (pre ls : List Str)
    (h : ∀ l ∈ pre, startsWith userProfilesLabel (strip l) = false) :
    parseListLoop (pre ++ ls) false = parseListLoop ls false := by
  induction pre with
  | nil => rfl
  | cons l pre ih =>
    have hl := h l (List.mem_cons_self _ _)
    simp only [List.cons_append, parseListLoop, hl, Bool.false_eq_true, if_false]
    exact ih (fun x hx => h x (List.mem_cons_of_mem _ hx))

theorem parseListLoop_no_header (ls : List Str)
    (h : ∀ l ∈ ls, startsWith userProfilesLabel (strip l) = false) :
    parseListLoop ls false = [] := by
  have := parseListLoop_skip ls [] h
  rw [List.append_nil] at this
  rw [this]
  rfl

theorem parseListLoop_section (body : List Str) (term : Str) (rest : List Str)
    (hb : ∀ l ∈ body, strip l ≠ [] ∧ startsWith userProfilesLabel (strip l) = false ∧
      startsWith groupPolicyLabel (strip l) = false)
    (ht : strip term = [] ∨ startsWith groupPolicyLabel (strip term) = true) :
    parseListLoop (body ++ term :: rest) true =
      body.filterMap (fun l => (searchEntry (strip l)).map strip) := by
  induction body with
  | nil =>
    simp only [List.nil_append, List.filterMap_nil]
    rcases ht with ht | ht
    · have hh : startsWith userProfilesLabel ([] : Str) = false := by decide
      simp [parseListLoop, ht, hh]
    · have hh := group_header_not_user_header _ ht
      simp [parseListLoop, hh, ht]
  | cons l body ih =>
    obtain ⟨h1, h2, h3⟩ := hb l (List.mem_cons_self _ _)
    have hne : (strip l).isEmpty = false := by
      cases hsl : strip l with
      | nil => exact absurd hsl h1
      | cons a as => rfl
    simp only [List.cons_append, parseListLoop, h2, Bool.false_eq_true, if_false, if_true,
      hne, h3, Bool.or_self, List.filterMap_cons]
    cases hse : searchEntry (strip l) with
    | none =>
      simp only [hse]
      exact ih (fun x hx => hb x (List.mem_cons_of_mem _ hx))
    | some g =>
      simp only [hse, Option.map_some']
      exact congrArg (fun x => strip g :: x) (ih (fun x hx => hb x (List.mem_cons_of_mem _ hx)))

/-- **C3**: over a well-formed user-profiles section (arbitrary prefix lines
that do not open the section, a header line, body lines that are non-blank
and open no section, then a terminator that is blank or opens the
group-policy section), `_parse_profile_list` returns exactly the trimmed
names extracted from the body lines by the entry pattern, in emission order,
ignoring everything outside capture mode; and without any section header the
result is the empty list, not an error. -/
theorem list_section_extraction (output : Str) :
    (∀ pre hdr body term rest,
      splitLines output = pre ++ (hdr :: (body ++ (term :: rest))) →
      (∀ l ∈ pre, startsWith userProfilesLabel (strip l) = false) →
      startsWith userProfilesLabel (strip hdr) = true →
      (∀ l ∈ body, strip l ≠ [] ∧ startsWith userProfilesLabel (strip l) = false ∧
        startsWith groupPolicyLabel (strip l) = false) →
      (strip term = [] ∨ startsWith groupPolicyLabel (strip term) = true) →
      parse_profile_list output = body.filterMap (fun l => (searchEntry (strip l)).map strip))
  ∧ ((∀ l ∈ splitLines output, startsWith userProfilesLabel (strip l) = false) →
      parse_profile_list output = []) := by
  constructor
  · intro pre hdr body term rest hsplit hpre hhdr hb ht
    unfold parse_profile_list
    rw [hsplit, parseListLoop_skip pre _ hpre]
    simp only [parseListLoop, hhdr, if_true]
    exact parseListLoop_section body term rest hb ht
  · intro h
    unfold parse_profile_list
    exact parseListLoop_no_header _ h

/-- Witness for `list_section_extraction`, the spec's example scenario: a
header plus two entry lines, a blank line, then an unrelated trailing
section; the parser returns exactly the two names in order.  A headerless
output yields the empty list. -/
theorem list_section_extraction_w :
    parse_profile_list (("junk line\nПрофили пользователей на этом интерфейсе:\n" ++
        "    Все профили пользователей : Alpha\n    Все профили пользователей : Beta Net\n" ++
        "\nПрофили групповой политики\n    Все профили пользователей : Ghost").data)
      = [("Alpha").data, ("Beta Net").data]
  ∧ parse_profile_list (("no section here\njust noise").data) = [] := by
  constructor
  · exact ((list_section_extraction _).1
      [("junk line").data]
      (("Профили пользователей на этом интерфейсе:").data)
      [("    Все профили пользователей : Alpha").data,
       ("    Все профили пользователей : Beta Net").data]
      [] [("Профили групповой политики").data, ("    Все профили пользователей : Ghost").data]
      (by decide) (by decide) (by decide) (by decide) (by decide)).trans (by decide)
  · exact (list_section_extraction _).2 (by decide)

/-! ## C4 / C8 / C9 / C10: filter engine and stats -/

theorem noSavedKey_eq_not_hasSavedKey (p : WifiProfile) :
    noSavedKey p = !hasSavedKey p := by
  unfold hasSavedKey noSavedKey
  by_cases h1 : p.key = [] <;> by_cases h2 : p.key = noPasswordSavedS <;>
    by_cases h3 : p.key = notFoundS <;> simp [h1, h2, h3]

/-- **C4**: filtering with `has_password=True` never returns a profile whose
key is empty or one of the two sentinels; filtering with `has_password=False`
returns exactly those profiles; and the two filtered lists together are a
permutation of the input — every profile lands in exactly one of them. -/
theorem filter_password_partition (ps : List WifiProfile) :
    (∀ p ∈ filter_profiles ps (some true) none,
      ¬(p.key = [] ∨ p.key = noPasswordSavedS ∨ p.key = notFoundS))
  ∧ (∀ p, p ∈ filter_profiles ps (some false) none ↔
      p ∈ ps ∧ (p.key = [] ∨ p.key = noPasswordSavedS ∨ p.key = notFoundS))
  ∧ List.Perm (filter_profiles ps (some true) none ++ filter_profiles ps (some false) none)
      ps := by
  refine ⟨fun p hp => ?_, fun p => ?_, ?_⟩
  · have h := (List.mem_filter.mp hp).2
    unfold hasSavedKey at h
    simp only [decide_eq_true_eq] at h
    tauto
  · rw [show filter_profiles ps (some false) none = ps.filter noSavedKey from rfl,
      List.mem_filter]
    unfold noSavedKey
    simp
  · rw [show filter_profiles ps (some true) none = ps.filter hasSavedKey from rfl,
      show filter_profiles ps (some false) none = ps.filter noSavedKey from rfl,
      List.filter_congr (fun p _ => noSavedKey_eq_not_hasSavedKey p)]
    exact List.filter_append_perm hasSavedKey ps

/-- Witness for `filter_password_partition` on a concrete mixed collection. -/
theorem filter_password_partition_w :
    (⟨("A").data, [], [], ("pw").data, [], [], []⟩ : WifiProfile) ∈
      filter_profiles
        [⟨("A").data, [], [], ("pw").data, [], [], []⟩,
         ⟨("B").data, [], [], noPasswordSavedS, [], [], []⟩] (some true) none
  ∧ (⟨("B").data, [], [], noPasswordSavedS, [], [], []⟩ : WifiProfile) ∈
      filter_profiles
        [⟨("A").data, [], [], ("pw").data, [], [], []⟩,
         ⟨("B").data, [], [], noPasswordSavedS, [], [], []⟩] (some false) none
  ∧ List.Perm
      (filter_profiles
        [⟨("A").data, [], [], ("pw").data, [], [], []⟩,
         ⟨("B").data, [], [], noPasswordSavedS, [], [], []⟩] (some true) none ++
       filter_profiles
        [⟨("A").data, [], [], ("pw").data, [], [], []⟩,
         ⟨("B").data, [], [], noPasswordSavedS, [], [], []⟩] (some false) none)
      [⟨("A").data, [], [], ("pw").data, [], [], []⟩,
       ⟨("B").data, [], [], noPasswordSavedS, [], [], []⟩] := by
  refine ⟨by decide, ?_, (filter_password_partition _).2.2⟩
  exact ((filter_password_partition _).2.1 _).mpr ⟨by decide, by decide⟩

theorem hasSub_nil_pat (s : Str) : hasSub [] s = true := by
  cases s <;> simp [hasSub, startsWith, List.isEmpty]

/-- **C8**: SSID filtering is a case-insensitive substring match — a profile
is retained exactly when the lowercased filter occurs inside the lowercased
SSID (with an empty filter, Python's falsiness check skips the filter, which
agrees with "the empty string is a substring of everything"); in particular
the filter `"HOME"` matches the SSID `"My-Home-Net"`. -/
theorem ssid_filter_substring :
    (∀ (ps : List WifiProfile) (f : Str) (p : WifiProfile),
      p ∈ filter_profiles ps none (some f) ↔
        p ∈ ps ∧ hasSub (lower f) (lower p.ssid) = true)
  ∧ hasSub (lower (("HOME").data)) (lower (("My-Home-Net").data)) = true := by
  constructor
  · intro ps f p
    by_cases hf : f = []
    · subst hf
      simp [filter_profiles, List.isEmpty, lower, hasSub_nil_pat]
    · have hne : f.isEmpty = false := by
        cases f with
        | nil => exact absurd rfl hf
        | cons a as => rfl
      simp [filter_profiles, hne, List.mem_filter]
  · decide

/-- Witness for `ssid_filter_substring`: the profile named `"My-Home-Net"`
survives the filter `"HOME"`. -/
theorem ssid_filter_substring_w :
    (⟨("My-Home-Net").data, [], [], [], [], [], []⟩ : WifiProfile) ∈
      filter_profiles [⟨("My-Home-Net").data, [], [], [], [], [], []⟩]
        none (some (("HOME").data)) := by
  exact (ssid_filter_substring.1 _ _ _).mpr ⟨by decide, by decide⟩

theorem filter_profiles_sublist (ps : List WifiProfile)
    (hp : Option Bool) (sf : Option Str) :
    List.Sublist (filter_profiles ps hp sf) ps := by
  unfold filter_profiles
  have h1 : List.Sublist
      (match hp with
       | none => ps
       | some true => ps.filter hasSavedKey
       | some false => ps.filter noSavedKey) ps := by
    cases hp with
    | none => exact List.Sublist.refl ps
    | some b => cases b <;> exact List.filter_sublist ps
  cases sf with
  | none => exact h1
  | some f =>
    by_cases hf : f.isEmpty
    · simp only [hf, if_true]
      exact h1
    · simp only [hf, Bool.false_eq_true, if_false]
      exact (List.filter_sublist _).trans h1

/-- **C9**: `filter_profiles` never mutates the extractor — the object state
after the call is the state before it — and the returned list is a fresh
subsequence of `self.profiles` (the source collection, unchanged, in its
original order). -/
theorem filter_leaves_state (e : WifiExtractor) (hp : Option Bool) (sf : Option Str) :
    (e.filterProfilesM hp sf).2 = e
  ∧ List.Sublist (e.filterProfilesM hp sf).1 e.profiles :=
  ⟨rfl, filter_profiles_sublist e.profiles hp sf⟩

/-- **C10**: `get_stats` is arithmetically consistent —
`with_password + without_password = total_profiles` — and its
`with_password` count is exactly the size of `filter_profiles` with
`has_password=True` on the same collection. -/
theorem stats_consistent (e : WifiExtractor) :
    (e.getStats).with_password + (e.getStats).without_password
      = (e.getStats).total_profiles
  ∧ (e.getStats).with_password = (filter_profiles e.profiles (some true) none).length := by
  constructor
  · have hle : (e.profiles.filter hasSavedKey).length ≤ e.profiles.length :=
      List.length_filter_le hasSavedKey e.profiles
    simp only [WifiExtractor.getStats]
    omega
  · rfl

/-! ## C5: the elevation gate of extract_profiles -/

/-- **C5**: when the extractor is not elevated, `extract_profiles` raises the
privilege error immediately: no external command is issued (empty command
trace) and the stored profile collection is exactly the one from before the
call. -/
theorem extract_requires_admin (e : WifiExtractor) (runCmd : Str → Str)
    (h : e.is_admin = false) :
    e.extractProfilesM runCmd = (Except.error adminErrMsg, e, []) := by
  unfold WifiExtractor.extractProfilesM
  rw [if_pos h]

/-- Witness for `extract_requires_admin` on a concrete non-admin extractor. -/
theorem extract_requires_admin_w :
    WifiExtractor.extractProfilesM ⟨[], false⟩ (fun _ => []) =
      (Except.error adminErrMsg, ⟨[], false⟩, []) :=
  extract_requires_admin ⟨[], false⟩ (fun _ => []) rfl

/-! ## C7: the export boundary -/

/-- **C7**: every export operation is total and returns a boolean: when the
file-system write succeeds the result is `True` (nothing logged); when it
fails the exception is caught, the error is logged with the format-specific
tag, and the result is `False` — for all three formats, no exception crosses
the export boundary. -/
theorem export_reports_failure (fs : Str → Str → Except Str Unit)
    (fn now : Str) (ps : List WifiProfile) :
    (fs fn (txtContent now ps) = Except.ok () →
      export_to_txt fs fn now ps = (true, []))
  ∧ (∀ e, fs fn (txtContent now ps) = Except.error e →
      export_to_txt fs fn now ps = (false, [txtErrTag ++ e]))
  ∧ (fs fn (csvContent ps) = Except.ok () →
      export_to_csv fs fn ps = (true, []))
  ∧ (∀ e, fs fn (csvContent ps) = Except.error e →
      export_to_csv fs fn ps = (false, [csvErrTag ++ e]))
  ∧ (fs fn (jsonContent now ps) = Except.ok () →
      export_to_json fs fn now ps = (true, []))
  ∧ (∀ e, fs fn (jsonContent now ps) = Except.error e →
      export_to_json fs fn now ps = (false, [jsonErrTag ++ e])) := by
  refine ⟨fun h => ?_, fun e h => ?_, fun h => ?_, fun e h => ?_, fun h => ?_, fun e h => ?_⟩ <;>
    · first
      | (unfold export_to_txt; rw [h])
      | (unfold export_to_csv; rw [h])
      | (unfold export_to_json; rw [h])

/-- Witness for `export_reports_failure`: a failing writer yields `False`
plus a log line; a succeeding writer yields `True`. -/
theorem export_reports_failure_w :
    export_to_txt (fun _ _ => Except.error (("disk full").data)) [] [] [] =
      (false, [txtErrTag ++ ("disk full").data])
  ∧ export_to_json (fun _ _ => Except.ok ()) [] [] [] = (true, []) := by
  constructor
  · exact (export_reports_failure (fun _ _ => Except.error (("disk full").data))
      [] [] []).2.1 (("disk full").data) rfl
  · exact (export_reports_failure (fun _ _ => Except.ok ()) [] [] []).2.2.2.2.1 rfl

/-! ## C6: export-then-reparse round trip for the JSON format -/

theorem digitChar_isDigit (m : Nat) (h : m < 10) : (digitChar m).isDigit = true := by
  have hall : ∀ k : Fin 10, (digitChar k.1).isDigit = true := by decide
  exact hall ⟨m, h⟩

theorem hexCharVal_hexDigitChar (m : Nat) (h : m < 16) :
    hexCharVal (hexDigitChar m) = some m := by
  have hall : ∀ k : Fin 16, hexCharVal (hexDigitChar k.1) = some k.1 := by decide
  exact hall ⟨m, h⟩

theorem isDigit_not_jsonWs (c : Char) (h : c.isDigit = true) : isJsonWs c = false := by
  by_cases h1 : c = ' '
  · exact absurd (h1 ▸ h) (by decide)
  · by_cases h2 : c = '\t'
    · exact absurd (h2 ▸ h) (by decide)
    · by_cases h3 : c = '\n'
      · exact absurd (h3 ▸ h) (by decide)
      · by_cases h4 : c = '\r'
        · exact absurd (h4 ▸ h) (by decide)
        · simp [isJsonWs, h1, h2, h3, h4]

theorem natReprAux_ne_nil (n : Nat) : ∀ acc, natReprAux n acc ≠ [] := by
  induction n using Nat.strong_induction_on with
  | _ n ih =>
    intro acc
    unfold natReprAux
    split
    · simp
    · exact ih (n / 10) (Nat.div_lt_self (by omega) (by omega)) _

theorem natReprAux_digits (n : Nat) :
    ∀ acc, (∀ c ∈ acc, c.isDigit = true) →
      ∀ c ∈ natReprAux n acc, c.isDigit = true := by
  induction n using Nat.strong_induction_on with
  | _ n ih =>
    intro acc hacc
    unfold natReprAux
    split
    · intro c hc
      rcases List.mem_cons.mp hc with rfl | hc
      · exact digitChar_isDigit n (by omega)
      · exact hacc _ hc
    · refine ih (n / 10) (Nat.div_lt_self (by omega) (by omega)) _ ?_
      intro c hc
      rcases List.mem_cons.mp hc with rfl | hc
      · exact digitChar_isDigit _ (Nat.mod_lt _ (by omega))
      · exact hacc _ hc

theorem natRepr_ne_nil (n : Nat) : natRepr n ≠ [] := natReprAux_ne_nil n []

theorem natRepr_digits (n : Nat) : ∀ c ∈ natRepr n, c.isDigit = true :=
  natReprAux_digits n [] (by simp)

theorem natRepr_isEmpty_false (n : Nat) : (natRepr n).isEmpty = false := by
  cases hr : natRepr n with
  | nil => exact absurd hr (natRepr_ne_nil n)
  | cons d ds => rfl

theorem skipWsJ_not_ws (c : Char) (X : Str) (h : isJsonWs c = false) :
    skipWsJ (c :: X) = c :: X := by
  simp [skipWsJ, List.dropWhile_cons, h]

theorem skipWsJ_all_append (ws X : Str) (h : ∀ c ∈ ws, isJsonWs c = true) :
    skipWsJ (ws ++ X) = skipWsJ X := by
  induction ws with
  | nil => rfl
  | cons c t ih =>
    simp only [List.cons_append, skipWsJ, List.dropWhile_cons,
      h c (List.mem_cons_self _ _), if_true]
    exact ih (fun x hx => h x (List.mem_cons_of_mem _ hx))

theorem skipWsJ_brace (X : Str) : skipWsJ ('\x7b' :: X) = '\x7b' :: X :=
  skipWsJ_not_ws _ _ (by decide)

theorem skipWsJ_comma (X : Str) : skipWsJ (',' :: X) = ',' :: X :=
  skipWsJ_not_ws _ _ (by decide)

theorem skipWsJ_colon (X : Str) : skipWsJ (':' :: X) = ':' :: X :=
  skipWsJ_not_ws _ _ (by decide)

theorem skipWsJ_lbrack (X : Str) : skipWsJ ('[' :: X) = '[' :: X :=
  skipWsJ_not_ws _ _ (by decide)

theorem skipWsJ_rbrack (X : Str) : skipWsJ (']' :: X) = ']' :: X :=
  skipWsJ_not_ws _ _ (by decide)

theorem skipWsJ_rbrace (X : Str) : skipWsJ ('\x7d' :: X) = '\x7d' :: X :=
  skipWsJ_not_ws _ _ (by decide)

theorem skipWsJ_ind2 (X : Str) : skipWsJ (ind2 ++ X) = skipWsJ X :=
  skipWsJ_all_append _ _ (by decide)

theorem skipWsJ_ind4 (X : Str) : skipWsJ (ind4 ++ X) = skipWsJ X :=
  skipWsJ_all_append _ _ (by decide)

theorem skipWsJ_ind6 (X : Str) : skipWsJ (ind6 ++ X) = skipWsJ X :=
  skipWsJ_all_append _ _ (by decide)

theorem skipWsJ_space (X : Str) : skipWsJ (' ' :: X) = skipWsJ X := by
  have h : isJsonWs ' ' = true := by decide
  simp [skipWsJ, List.dropWhile_cons, h]

theorem skipWsJ_nl (X : Str) : skipWsJ ('\n' :: X) = skipWsJ X := by
  have h : isJsonWs '\n' = true := by decide
  simp [skipWsJ, List.dropWhile_cons, h]

theorem skipWsJ_natRepr_append (n : Nat) (X : Str) :
    skipWsJ (natRepr n ++ X) = natRepr n ++ X := by
  cases hr : natRepr n with
  | nil => exact absurd hr (natRepr_ne_nil n)
  | cons d ds =>
    have hd : d.isDigit = true := natRepr_digits n d (by rw [hr]; exact List.mem_cons_self _ _)
    rw [List.cons_append, skipWsJ_not_ws _ _ (isDigit_not_jsonWs d hd)]

theorem takeWhile_digits_of_all (d : Str) (c : Char) (X : Str)
    (hd : ∀ x ∈ d, x.isDigit = true) (hc : c.isDigit = false) :
    List.takeWhile Char.isDigit (d ++ c :: X) = d := by
  induction d with
  | nil => simp [List.takeWhile_cons, hc]
  | cons a t ih =>
    simp only [List.cons_append, List.takeWhile_cons, hd a (List.mem_cons_self _ _), if_true]
    rw [ih (fun x hx => hd x (List.mem_cons_of_mem _ hx))]

theorem dropWhile_digits_of_all (d : Str) (c : Char) (X : Str)
    (hd : ∀ x ∈ d, x.isDigit = true) (hc : c.isDigit = false) :
    List.dropWhile Char.isDigit (d ++ c :: X) = c :: X := by
  induction d with
  | nil => simp [List.dropWhile_cons, hc]
  | cons a t ih =>
    simp only [List.cons_append, List.dropWhile_cons, hd a (List.mem_cons_self _ _), if_true]
    exact ih (fun x hx => hd x (List.mem_cons_of_mem _ hx))

theorem parseStrBody_quote (t : Str) : parseStrBody ('"' :: t) = some ([], t) := by
  conv_lhs => rw [parseStrBody.eq_def]
  simp

theorem parseStrBody_plain (c : Char) (t : Str) (h1 : c ≠ '"') (h2 : c ≠ '\\')
    (h3 : ¬c.toNat < 32) :
    parseStrBody (c :: t) = (parseStrBody t).map (fun pr => (c :: pr.1, pr.2)) := by
  conv_lhs => rw [parseStrBody.eq_def]
  simp [h1, h2, h3]

theorem parseStrBody_short_escape (e u : Char) (t : Str) (he : e ≠ 'u')
    (hu : unescapeChar e = some u) :
    parseStrBody ('\\' :: e :: t) = (parseStrBody t).map (fun pr => (u :: pr.1, pr.2)) := by
  have hq : ('\\' : Char) ≠ '"' := by decide
  conv_lhs => rw [parseStrBody.eq_def]
  simp [hq, he, hu]

theorem parseStrBody_unicode_escape (x1 x2 x3 x4 : Char) (a b d1 d2 : Nat) (t : Str)
    (e1 : hexCharVal x1 = some a) (e2 : hexCharVal x2 = some b)
    (e3 : hexCharVal x3 = some d1) (e4 : hexCharVal x4 = some d2) :
    parseStrBody ('\\' :: 'u' :: x1 :: x2 :: x3 :: x4 :: t) =
      (parseStrBody t).map
        (fun pr => (Char.ofNat (4096 * a + 256 * b + 16 * d1 + d2) :: pr.1, pr.2)) := by
  have hq : ('\\' : Char) ≠ '"' := by decide
  conv_lhs => rw [parseStrBody.eq_def]
  simp [hq, e1, e2, e3, e4]

theorem parseStrBody_jsonEsc (s : Str) : ∀ rest : Str,
    parseStrBody (jsonEsc s ++ '"' :: rest) = some (s, rest) := by
  induction s with
  | nil =>
    intro rest
    simp [jsonEsc, parseStrBody_quote]
  | cons c cs ih =>
    intro rest
    rw [show jsonEsc (c :: cs) = escapeChar c ++ jsonEsc cs from rfl, List.append_assoc]
    by_cases h1 : c = '"'
    · subst h1
      rw [show escapeChar '"' = ['\\', '"'] from by decide]
      simp only [List.cons_append, List.nil_append]
      rw [parseStrBody_short_escape '"' '"' _ (by decide) (by decide), ih rest]
      rfl
    · by_cases h2 : c = '\\'
      · subst h2
        rw [show escapeChar '\\' = ['\\', '\\'] from by decide]
        simp only [List.cons_append, List.nil_append]
        rw [parseStrBody_short_escape '\\' '\\' _ (by decide) (by decide), ih rest]
        rfl
      · by_cases h3 : c = '\x08'
        · subst h3
          rw [show escapeChar '\x08' = ['\\', 'b'] from by decide]
          simp only [List.cons_append, List.nil_append]
          rw [parseStrBody_short_escape 'b' '\x08' _ (by decide) (by decide), ih rest]
          rfl
        · by_cases h4 : c = '\x0c'
          · subst h4
            rw [show escapeChar '\x0c' = ['\\', 'f'] from by decide]
            simp only [List.cons_append, List.nil_append]
            rw [parseStrBody_short_escape 'f' '\x0c' _ (by decide) (by decide), ih rest]
            rfl
          · by_cases h5 : c = '\n'
            · subst h5
              rw [show escapeChar '\n' = ['\\', 'n'] from by decide]
              simp only [List.cons_append, List.nil_append]
              rw [parseStrBody_short_escape 'n' '\n' _ (by decide) (by decide), ih rest]
              rfl
            · by_cases h6 : c = '\r'
              · subst h6
                rw [show escapeChar '\r' = ['\\', 'r'] from by decide]
                simp only [List.cons_append, List.nil_append]
                rw [parseStrBody_short_escape 'r' '\r' _ (by decide) (by decide), ih rest]
                rfl
              · by_cases h7 : c = '\t'
                · subst h7
                  rw [show escapeChar '\t' = ['\\', 't'] from by decide]
                  simp only [List.cons_append, List.nil_append]
                  rw [parseStrBody_short_escape 't' '\t' _ (by decide) (by decide), ih rest]
                  rfl
                · by_cases h8 : c.toNat < 32
                  · have hesc : escapeChar c =
                        ['\\', 'u', '0', '0', hexDigitChar (c.toNat / 16),
                         hexDigitChar (c.toNat % 16)] := by
                      simp [escapeChar, h1, h2, h3, h4, h5, h6, h7, h8]
                    rw [hesc]
                    simp only [List.cons_append, List.nil_append]
                    rw [parseStrBody_unicode_escape '0' '0' _ _ 0 0 (c.toNat / 16)
                      (c.toNat % 16) _ (by decide) (by decide)
                      (hexCharVal_hexDigitChar _ (by omega))
                      (hexCharVal_hexDigitChar _ (Nat.mod_lt _ (by omega))), ih rest]
                    have hv : 4096 * 0 + 256 * 0 + 16 * (c.toNat / 16) + c.toNat % 16
                        = c.toNat := by omega
                    rw [Option.map_some', hv, Char.ofNat_toNat]
                  · have hesc : escapeChar c = [c] := by
                      simp [escapeChar, h1, h2, h3, h4, h5, h6, h7, h8]
                    rw [hesc]
                    simp only [List.cons_append, List.nil_append]
                    rw [parseStrBody_plain c _ h1 h2 h8, ih rest]
                    rfl

theorem parseStrLit_jq (s rest : Str) : parseStrLit (jq s ++ rest) = some (s, rest) := by
  rw [show jq s ++ rest = '"' :: (jsonEsc s ++ '"' :: rest) from by
    simp [jq, List.cons_append, List.append_assoc]]
  simp [parseStrLit, parseStrBody_jsonEsc]

theorem skipWsJ_jq_append (s X : Str) : skipWsJ (jq s ++ X) = jq s ++ X := by
  rw [show jq s ++ X = '"' :: (jsonEsc s ++ '"' :: X) from by
    simp [jq, List.cons_append, List.append_assoc]]
  exact skipWsJ_not_ws _ _ (by decide)

theorem expectCharHead_pos (c : Char) (X : Str) : expectCharHead c (c :: X) = some X := by
  simp [expectCharHead]

theorem expectComma_cons (X : Str) : expectComma (',' :: X) = some X := by
  unfold expectComma
  rw [skipWsJ_comma]
  exact expectCharHead_pos ',' X

theorem expectColon_cons (X : Str) : expectColon (':' :: X) = some X := by
  unfold expectColon
  rw [skipWsJ_colon]
  exact expectCharHead_pos ':' X

theorem parseKeyedStr_pair (key val ws R : Str) (hws : ∀ c ∈ ws, isJsonWs c = true) :
    parseKeyedStr key (ws ++ (jsonPair key val ++ R)) = some (val, R) := by
  unfold parseKeyedStr
  rw [skipWsJ_all_append _ _ hws,
    show jsonPair key val ++ R = jq key ++ (':' :: ' ' :: (jq val ++ R)) from by
      simp [jsonPair, List.cons_append, List.append_assoc],
    skipWsJ_jq_append, parseStrLit_jq]
  simp only [Option.bind_eq_bind, Option.some_bind, if_true, skipWsJ_colon,
    expectCharHead_pos, skipWsJ_space, skipWsJ_jq_append, parseStrLit_jq]

theorem parseKeyedStr_ind6 (key val R : Str) :
    parseKeyedStr key (ind6 ++ (jsonPair key val ++ R)) = some (val, R) :=
  parseKeyedStr_pair key val ind6 R (by decide)

theorem parseKeyedStr_ind2 (key val R : Str) :
    parseKeyedStr key (ind2 ++ (jsonPair key val ++ R)) = some (val, R) :=
  parseKeyedStr_pair key val ind2 R (by decide)

theorem parseFieldsAfter_render (kvs : List (Str × Str)) (R : Str) :
    parseFieldsAfter (kvs.map Prod.fst) (renderFields kvs ++ R)
      = some (kvs.map Prod.snd, R) := by
  induction kvs with
  | nil => simp [parseFieldsAfter, renderFields]
  | cons kv t ih =>
    obtain ⟨k, v⟩ := kv
    simp only [renderFields, List.map_cons, List.cons_append, List.append_assoc,
      parseFieldsAfter]
    rw [expectComma_cons]
    simp only [Option.bind_eq_bind, Option.some_bind]
    rw [parseKeyedStr_ind6]
    simp only [Option.some_bind]
    rw [ih]
    simp only [Option.some_bind]

theorem parseProfileObj_render (p : WifiProfile) (ws R : Str)
    (hws : ∀ c ∈ ws, isJsonWs c = true) :
    parseProfileObj (ws ++ (renderProfileObj p ++ R)) = some (p, R) := by
  unfold parseProfileObj
  rw [skipWsJ_all_append _ _ hws]
  simp only [renderProfileObj, List.cons_append, List.append_assoc, List.nil_append]
  rw [skipWsJ_brace]
  simp only [Option.bind_eq_bind]
  rw [expectCharHead_pos]
  simp only [Option.some_bind]
  rw [parseKeyedStr_ind6]
  simp only [Option.some_bind]
  rw [show ([("authentication").data, ("encryption").data, ("key").data,
        ("key_type").data, ("profile_type").data, ("last_modified").data] : List Str)
      = (tailFields p).map Prod.fst from rfl,
    parseFieldsAfter_render (tailFields p) (ind4 ++ ('\x7d' :: R)),
    show (tailFields p).map Prod.snd
      = [p.authentication, p.encryption, p.key, p.key_type, p.profile_type,
         p.last_modified] from rfl]
  simp only [Option.some_bind]
  rw [skipWsJ_ind4, skipWsJ_rbrace, expectCharHead_pos]
  simp only [Option.some_bind]

theorem parseArrItems_render (ps : List WifiProfile) :
    ∀ (p : WifiProfile) (rest : Str) (fuel : Nat), ps.length < fuel →
    parseArrItems fuel (ind4 ++ (renderProfileObj p ++ (renderArrTail ps ++ rest)))
      = some (p :: ps, rest) := by
  induction ps with
  | nil =>
    intro p rest fuel hf
    match fuel, hf with
    | fuel + 1, _ =>
      simp only [parseArrItems, Option.bind_eq_bind]
      rw [parseProfileObj_render p ind4 _ (by decide)]
      simp only [Option.some_bind, renderArrTail, List.cons_append, List.append_assoc,
        List.nil_append]
      rw [skipWsJ_ind2, skipWsJ_rbrack]
      simp
  | cons q qs ih =>
    intro p rest fuel hf
    match fuel, hf with
    | fuel + 1, hf =>
      simp only [parseArrItems, Option.bind_eq_bind]
      rw [parseProfileObj_render p ind4 _ (by decide)]
      simp only [Option.some_bind, renderArrTail, List.cons_append, List.append_assoc]
      rw [skipWsJ_comma]
      have hfl : qs.length < fuel := by
        have := Nat.lt_of_succ_lt_succ hf
        simpa using this
      simp only [reduceIte]
      rw [ih q rest fuel hfl]
      simp only [Option.some_bind]
      rw [if_neg (by decide : ¬(',' : Char) = ']')]

theorem parseProfilesValue_render (ps : List WifiProfile) (ws rest : Str) (fuel : Nat)
    (hws : ∀ c ∈ ws, isJsonWs c = true) (hf : ps.length < fuel) :
    parseProfilesValue fuel (ws ++ (renderProfilesArr ps ++ rest)) = some (ps, rest) := by
  cases ps with
  | nil =>
    unfold parseProfilesValue
    simp only [renderProfilesArr, List.cons_append, List.nil_append]
    rw [skipWsJ_all_append _ _ hws, skipWsJ_lbrack]
    simp only [Option.bind_eq_bind]
    rw [expectCharHead_pos]
    simp only [Option.some_bind]
    rw [skipWsJ_rbrack]
    simp only [reduceIte]
  | cons p qs =>
    unfold parseProfilesValue
    simp only [renderProfilesArr, List.cons_append, List.append_assoc]
    rw [skipWsJ_all_append _ _ hws, skipWsJ_lbrack]
    simp only [Option.bind_eq_bind]
    rw [expectCharHead_pos]
    simp only [Option.some_bind]
    have hql : qs.length < fuel := by
      simp only [List.length_cons] at hf
      omega
    rw [parseArrItems_render qs p rest fuel hql, skipWsJ_ind4]
    have hT : renderProfileObj p ++ (renderArrTail qs ++ rest)
        = '\x7b' :: (ind6 ++ (jsonPair (("ssid").data) p.ssid ++
          (renderFields (tailFields p) ++ (ind4 ++
            ('\x7d' :: (renderArrTail qs ++ rest)))))) := by
      simp [renderProfileObj, List.cons_append, List.append_assoc]
    rw [hT, skipWsJ_brace]
    simp only [reduceIte]
    rw [if_neg (by decide : ¬('\x7b' : Char) = ']')]

theorem renderArrTail_len (ps : List WifiProfile) : ps.length ≤ (renderArrTail ps).length := by
  induction ps with
  | nil => simp [renderArrTail]
  | cons p t ih =>
    simp only [renderArrTail, List.length_cons, List.length_append]
    omega

theorem renderProfilesArr_len (ps : List WifiProfile) :
    ps.length ≤ (renderProfilesArr ps).length := by
  cases ps with
  | nil => simp [renderProfilesArr]
  | cons p t =>
    have h := renderArrTail_len t
    simp only [renderProfilesArr, List.length_cons, List.length_append]
    omega

/-- **C6**: the text written by `export_to_json` (the document `jsonContent`),
read back by the JSON reader, yields the `generated` timestamp, the digit run
of `total_profiles` (which is the rendering of the profile count), and the
profile records themselves — exactly `N` objects, in order, with every field
(the six displayable ones and `last_modified`) equal to the original: the
serialization is lossless. -/
theorem json_export_roundtrip (now : Str) (ps : List WifiProfile) :
    parseJsonDoc (jsonContent now ps) = some (now, natRepr ps.length, ps) := by
  unfold parseJsonDoc
  simp only [jsonContent, List.cons_append, List.append_assoc, List.nil_append]
  rw [skipWsJ_brace]
  simp only [Option.bind_eq_bind]
  rw [expectCharHead_pos]
  simp only [Option.some_bind]
  rw [parseKeyedStr_ind2]
  simp only [Option.some_bind]
  rw [expectComma_cons]
  simp only [Option.some_bind]
  rw [skipWsJ_ind2, skipWsJ_jq_append, parseStrLit_jq]
  simp only [Option.some_bind, eq_self_iff_true, if_true]
  rw [expectColon_cons]
  simp only [Option.some_bind]
  rw [skipWsJ_space, skipWsJ_natRepr_append,
    takeWhile_digits_of_all (natRepr ps.length) ',' _ (natRepr_digits _) (by decide),
    dropWhile_digits_of_all (natRepr ps.length) ',' _ (natRepr_digits _) (by decide),
    natRepr_isEmpty_false]
  simp only [Bool.false_eq_true, if_false]
  rw [expectComma_cons]
  simp only [Option.some_bind]
  rw [skipWsJ_ind2, skipWsJ_jq_append, parseStrLit_jq]
  simp only [Option.some_bind, eq_self_iff_true, if_true]
  rw [expectColon_cons]
  simp only [Option.some_bind]
  have hlen : ps.length <
      (' ' :: (renderProfilesArr ps ++ ('\n' :: ('\x7d' :: [])))).length + 1 := by
    have h := renderProfilesArr_len ps
    simp only [List.length_cons, List.length_append]
    omega
  rw [show (' ' :: (renderProfilesArr ps ++ ('\n' :: ('\x7d' :: [])))) =
      [' '] ++ (renderProfilesArr ps ++ ('\n' :: ('\x7d' :: []))) from rfl,
    parseProfilesValue_render ps [' '] ('\n' :: ('\x7d' :: [])) _ (by decide)
      (by simpa using hlen)]
  simp only [Option.some_bind]
  rw [skipWsJ_nl, skipWsJ_rbrace, expectCharHead_pos]
  simp only [Option.some_bind]
  rfl
